import Mathlib

/-!
# Verification of the `michael_jackson` graph library (`src/lib.rs`)

Shallow embedding of the Rust crate. Conventions:

* `Vec<T>` and `LinkedList<T>` are modelled as `List T`; `usize` as `Nat`,
  `isize` as `Int`.
* A Rust panic (in particular a body that is `unimplemented!()`) is modelled
  by an `Option` result being `none`; an operation that cannot panic is a
  total function.
* Every public graph method takes `&self` (a shared borrow) and the `Graph`
  struct has no interior mutability, so a method that returns cannot have
  changed the graph; the post-state of a returning call is therefore the
  argument graph itself (see `runOp` below).
* `VRef<'a, V, E>` holds `index: usize` and `graph: &'a Graph<V, E>`; the
  borrow is modelled by embedding the referenced graph value in the handle.
-/

namespace MichaelJackson

variable {V E : Type}

/-- `struct Vertex<V>`: one vertex record, holding its payload. -/
structure Vertex (V : Type) where
  contents : V

/-- `struct Edge<E>`: one adjacency record, keeping indices to both
endpoints (`parent`, `child`) and the weight of the edge. -/
structure Edge (E : Type) where
  parent : Nat
  child : Nat
  weight : E

/-- `struct Graph<V, E>`: an adjacency list (a vector of linked lists of
edge records) together with a vector of vertices. -/
structure Graph (V E : Type) where
  adj_list : List (List (Edge E))
  vertices : List (Vertex V)

/-- `struct VRef<'a, V, E>`: a handle to a vertex, an `index` together with
the graph it refers to (the `graph: &'a Graph<V, E>` field). -/
structure VRef (V E : Type) where
  index : Nat
  graph : Graph V E

/-- `struct VIter<'a, V, E>`: the vertex iterator, wrapping the current
position as a `VRef`. -/
structure VIter (V E : Type) where
  r : VRef V E

/-- `struct eIter<'a, E>`: a linked-list iterator over edge records,
modelled by the list of records not yet consumed. -/
structure eIter (E : Type) where
  iter : List (Edge E)

/-- `std::marker::PhantomData<V>`: a zero-sized type with exactly one
value; `Default::default()` produces `PhantomData.mk`. -/
inductive PhantomData (V : Type) where
  | mk

/-- `Graph::new`: the empty graph, both stores empty. -/
def Graph.new : Graph V E :=
  { adj_list := [], vertices := [] }

/-- `Graph::num_vertices` — the body is the constant `0`. -/
def Graph.num_vertices (_g : Graph V E) : Nat := 0

/-- `Graph::num_edges` — the body is the constant `0`. -/
def Graph.num_edges (_g : Graph V E) : Nat := 0

/-- `Graph::num_components` — the body is the constant `1`. -/
def Graph.num_components (_g : Graph V E) : Nat := 1

/-- `Graph::adjacent` — the body is the constant `true`. -/
def Graph.adjacent (_g : Graph V E) (_v1 _v2 : VRef V E) : Bool := true

/-- `Graph::get_neighbors` — the body is `Vec::new()`. -/
def Graph.get_neighbors (_g : Graph V E) (_v : VRef V E) : List (VRef V E) := []

/-- `Graph::get_adjacency_matrix` — returns `Vec<usize>`; the body is
`Vec::new()`. -/
def Graph.get_adjacency_matrix (_g : Graph V E) : List Nat := []

/-- `Graph::get_laplacian` — returns `Vec<Vec<isize>>`; the body is
`Vec::new()`. -/
def Graph.get_laplacian (_g : Graph V E) : List (List Int) := []

/-- `Graph::replace_vertex` — the body is `Default::default()`, of the
declared return type `PhantomData<V>`; the previous payload is not
returned and the graph (taken by `&self`) is untouched. -/
def Graph.replace_vertex (_g : Graph V E) (_v : VRef V E) (_value : V) :
    PhantomData V :=
  PhantomData.mk

/-- `Graph::replace_edge` — the body is `None` (the Rust return type is
`Option<E>`); the supplied weight is dropped and the graph is untouched. -/
def Graph.replace_edge (_g : Graph V E) (_v1 _v2 : VRef V E) (_value : E) :
    Option E :=
  none

/-- `Graph::add_vertex` — the body is `unimplemented!()`, which panics on
every call; the panic is modelled as `none`. -/
def Graph.add_vertex (_g : Graph V E) (_v : V) : Option (VRef V E) := none

/-- `Graph::add_edge` — the body is `unimplemented!()`, which panics on
every call (outer `none`); on a hypothetical return the Rust value would
have type `Option<eIter<E>>` (the inner `Option`). -/
def Graph.add_edge (_g : Graph V E) (_v1 _v2 : VRef V E) (_value : E) :
    Option (Option (eIter E)) :=
  none

/-- `Graph::new_from_edges` — the body is `unimplemented!()` (panic,
modelled as `none`). -/
def Graph.new_from_edges (_edges : List (V × V)) : Option (Graph V E) := none

/-- `<VRef as Deref>::deref` — the body is `unimplemented!()`, which panics
on every call; the panic is modelled as `none`. -/
def VRef.deref (_r : VRef V E) : Option V := none

/-- `<eIter as Deref>::deref` — the body is `unimplemented!()`, which
panics on every call; the panic is modelled as `none`. -/
def eIter.deref (_it : eIter E) : Option E := none

/-- `Graph::vertices`: builds the iterator positioned at index `0` of this
graph. (Named `vertices_iter` here because `vertices` is taken by the
struct field projection.) -/
def Graph.vertices_iter (g : Graph V E) : VIter V E :=
  { r := { index := 0, graph := g } }

/-- `<VIter as Iterator>::next`: while `index < graph.num_vertices()`,
yield a copy of the current `VRef` and advance the index; otherwise the
iterator is exhausted. -/
def VIter.next (it : VIter V E) : Option (VRef V E × VIter V E) :=
  if it.r.index < it.r.graph.num_vertices then
    some ({ index := it.r.index, graph := it.r.graph },
          { r := { index := it.r.index + 1, graph := it.r.graph } })
  else
    none

/-- Drive a `VIter` for at most `fuel` calls of `next`, collecting the
yielded handles (the harness for consuming the Rust iterator). -/
def VIter.takeAux : Nat → VIter V E → List (VRef V E)
  | 0, _ => []
  | fuel + 1, it =>
    match it.next with
    | none => []
    | some (r, it2) => r :: VIter.takeAux fuel it2

/-- All handles yielded by a `VIter` run to exhaustion: from position
`index`, the loop condition `index < num_vertices()` admits exactly
`num_vertices() - index` further yields, so that much fuel is exact. -/
def VIter.toList (it : VIter V E) : List (VRef V E) :=
  VIter.takeAux (it.r.graph.num_vertices - it.r.index) it

/-- First loop of `Graph::extend_with_edges`: for each handle yielded by
`vertices()`, `ref_map.insert(*vref, vref)` — the key is obtained by
dereferencing the handle (`*vref`), which can panic (`none`). The map is
modelled as an association list where `insert` prepends. -/
def init_ref_map : List (VRef V E) → List (V × VRef V E) →
    Option (List (V × VRef V E))
  | [], m => some m
  | r :: rest, m =>
    match r.deref with
    | none => none
    | some u => init_ref_map rest ((u, r) :: m)

/-- One conditional insertion of `Graph::extend_with_edges`: if the payload
`u` is not yet a key of `ref_map`, call `add_vertex(u)` (which can panic),
push the new handle onto `vrefs` and record it in the map. The state is
the pair `(ref_map, vrefs)`. -/
def extend_vertex_step [DecidableEq V] (g : Graph V E) (u : V)
    (st : List (V × VRef V E) × List (VRef V E)) :
    Option (List (V × VRef V E) × List (VRef V E)) :=
  if (st.1.lookup u).isSome then
    some st
  else
    match g.add_vertex u with
    | none => none
    | some vref => some ((u, vref) :: st.1, st.2 ++ [vref])

/-- Main loop of `Graph::extend_with_edges`: for each pair `(u, v)`,
conditionally insert both endpoints, then
`add_edge(ref_map.get(&u).unwrap(), ref_map.get(&v).unwrap(), E::default())`;
both `unwrap()` and `add_edge` can panic, and the `add_edge` result is
discarded. -/
def extend_loop [DecidableEq V] [Inhabited E] (g : Graph V E) :
    List (V × V) → List (V × VRef V E) → List (VRef V E) →
    Option (List (VRef V E))
  | [], _, vrefs => some vrefs
  | (u, v) :: rest, m, vrefs =>
    match extend_vertex_step g u (m, vrefs) with
    | none => none
    | some (m1, vr1) =>
      match extend_vertex_step g v (m1, vr1) with
      | none => none
      | some (m2, vr2) =>
        match m2.lookup u, m2.lookup v with
        | some r1, some r2 =>
          match g.add_edge r1 r2 default with
          | none => none
          | some _ => extend_loop g rest m2 vr2
        | _, _ => none

/-- `Graph::extend_with_edges`: build `ref_map` from the existing vertices,
then process the pairs; returns the handles of the newly created vertices
in creation order (or `none` on a panic anywhere inside). -/
def Graph.extend_with_edges [DecidableEq V] [Inhabited E] (g : Graph V E)
    (edges : List (V × V)) : Option (List (VRef V E)) :=
  match init_ref_map g.vertices_iter.toList [] with
  | none => none
  | some m => extend_loop g edges m []

/-- The public operations of `Graph` that take a graph receiver, as an
inductive alphabet (used to reason about sequences of calls). -/
inductive Op (V E : Type) where
  | add_vertex (v : V)
  | add_edge (v1 v2 : VRef V E) (value : E)
  | replace_vertex (v : VRef V E) (value : V)
  | replace_edge (v1 v2 : VRef V E) (value : E)
  | get_neighbors (v : VRef V E)
  | adjacent (v1 v2 : VRef V E)
  | num_vertices
  | num_edges
  | get_adjacency_matrix
  | get_laplacian
  | num_components
  | extend_with_edges (edges : List (V × V))
  | vertices

/-- Run one public operation on a graph and return the post-state when the
call returns (`none` when it panics). Every method takes `&self` and
`Graph` has no interior mutability, so a returning call leaves the
receiver exactly as it was: the post-state is the argument graph. -/
def runOp [DecidableEq V] [Inhabited E] : Op V E → Graph V E →
    Option (Graph V E)
  | .add_vertex v, g => (g.add_vertex v).map fun _ => g
  | .add_edge v1 v2 w, g => (g.add_edge v1 v2 w).map fun _ => g
  | .replace_vertex v x, g =>
      let _ := g.replace_vertex v x
      some g
  | .replace_edge v1 v2 w, g =>
      let _ := g.replace_edge v1 v2 w
      some g
  | .get_neighbors v, g =>
      let _ := g.get_neighbors v
      some g
  | .adjacent v1 v2, g =>
      let _ := g.adjacent v1 v2
      some g
  | .num_vertices, g =>
      let _ := g.num_vertices
      some g
  | .num_edges, g =>
      let _ := g.num_edges
      some g
  | .get_adjacency_matrix, g =>
      let _ := g.get_adjacency_matrix
      some g
  | .get_laplacian, g =>
      let _ := g.get_laplacian
      some g
  | .num_components, g =>
      let _ := g.num_components
      some g
  | .extend_with_edges es, g => (g.extend_with_edges es).map fun _ => g
  | .vertices, g =>
      let _ := g.vertices_iter
      some g

/-- Run a sequence of public operations, stopping at the first panic. -/
def runOps [DecidableEq V] [Inhabited E] : List (Op V E) → Graph V E →
    Option (Graph V E)
  | [], g => some g
  | op :: rest, g =>
    match runOp op g with
    | none => none
    | some g2 => runOps rest g2

/-- A two-vertex graph whose adjacency store holds one edge record between
indices `0` and `1` with weight `7` (a direct instantiation of the
`Graph` struct, used to exercise the stubs on a graph that has an edge). -/
def gEdge : Graph Nat Nat :=
  { adj_list := [[{ parent := 0, child := 1, weight := 7 }], []],
    vertices := [{ contents := 10 }, { contents := 20 }] }

/-- `VIter::next` is exhausted at once on every graph, because
`num_vertices()` is the constant `0`. -/
lemma viter_next_eq_none (it : VIter V E) : it.next = none := by
  simp [VIter.next, Graph.num_vertices]

/-- However much fuel is provided, driving a vertex iterator yields no
handles. -/
lemma takeAux_eq_nil (fuel : Nat) (it : VIter V E) :
    VIter.takeAux fuel it = [] := by
  cases fuel with
  | zero => rfl
  | succ n => simp [VIter.takeAux, viter_next_eq_none]

/-- A single returning public call leaves the graph unchanged. -/
lemma runOp_eq_some [DecidableEq V] [Inhabited E] (op : Op V E)
    (g g' : Graph V E) (h : runOp op g = some g') : g' = g := by
  cases op <;>
    simp only [runOp, Option.map_eq_some', Option.some.injEq] at h <;>
    first
      | exact h.symm
      | (obtain ⟨a, -, h2⟩ := h; exact h2.symm)

/-- Any returning sequence of public calls leaves the graph unchanged. -/
lemma runOps_eq_some [DecidableEq V] [Inhabited E] (ops : List (Op V E)) :
    ∀ g g' : Graph V E, runOps ops g = some g' → g' = g := by
  induction ops with
  | nil => intro g g' h; simpa [runOps] using h.symm
  | cons op rest ih =>
    intro g g' h
    simp only [runOps] at h
    cases h2 : runOp op g with
    | none => rw [h2] at h; cases h
    | some g2 =>
      rw [h2] at h
      have hg2 : g2 = g := runOp_eq_some op g g2 h2
      have := ih g2 g' h
      rw [this, hg2]

/-- Claim C1: `add_vertex` is claimed to always succeed, return a handle to
the appended vertex, and increase `num_vertices()` by one. In the code,
`add_vertex` is `unimplemented!()` and panics on every call (modelled
`none`), and `num_vertices()` returns the constant `0` on every graph, so
it can never grow. -/
theorem add_vertex_diverges_and_count_constant :
    (Graph.new : Graph Nat Nat).add_vertex 0 = none ∧
    ∀ g : Graph Nat Nat, g.num_vertices = 0 :=
  ⟨rfl, fun _ => rfl⟩

/-- Claim C2: no public operation is supposed to panic. In the code,
`add_vertex` and `add_edge` panic (`unimplemented!()`) on every input,
including perfectly valid ones. -/
theorem insertion_ops_diverge :
    ∀ (g : Graph Nat Nat) (v : Nat) (r1 r2 : VRef Nat Nat) (w : Nat),
      g.add_vertex v = none ∧ g.add_edge r1 r2 w = none :=
  fun _ _ _ _ _ => ⟨rfl, rfl⟩

/-- Claim C3: `num_components()` on the empty graph is claimed to be `0`;
the code returns the hard-coded constant `1`. -/
theorem num_components_empty_graph :
    (Graph.new : Graph Nat Nat).num_components = 1 ∧
    (Graph.new : Graph Nat Nat).num_components ≠ 0 :=
  ⟨rfl, by decide⟩

/-- Claim C4: the vertex round trip is claimed to hand back the previous
payload. In the code, `add_vertex` panics before any handle exists, and
`replace_vertex` returns `PhantomData<V>` — a zero-sized value carrying no
payload — on every input, never the previous payload. -/
theorem vertex_round_trip_broken :
    (Graph.new : Graph Nat Nat).add_vertex 5 = none ∧
    ∀ (g : Graph Nat Nat) (r : VRef Nat Nat) (v2 : Nat),
      g.replace_vertex r v2 = PhantomData.mk :=
  ⟨rfl, fun _ _ _ => rfl⟩

/-- Claim C5: on a graph whose adjacency store holds the edge record
`(0, 1, weight 7)`, `replace_edge` is claimed to return the old weight `7`
and store the new weight `9`; the code returns `None` (and, taking
`&self`, stores nothing) on every input. -/
theorem replace_edge_none_on_existing_edge :
    gEdge.replace_edge { index := 0, graph := gEdge }
        { index := 1, graph := gEdge } 9 = none ∧
    gEdge.replace_edge { index := 0, graph := gEdge }
        { index := 1, graph := gEdge } 9 ≠ some 7 :=
  ⟨rfl, by decide⟩

/-- Claim C6: the first `add_edge` on a fresh pair is claimed to succeed
and raise `num_edges()` by one. In the code, `add_edge` is
`unimplemented!()` and panics already on the first call, and `num_edges()`
returns the constant `0` on every graph. -/
theorem add_edge_first_call_diverges :
    gEdge.add_edge { index := 0, graph := gEdge }
        { index := 1, graph := gEdge } 5 = none ∧
    gEdge.num_edges = 0 ∧ (Graph.new : Graph Nat Nat).num_edges = 0 :=
  ⟨rfl, rfl, rfl⟩

/-- Claim C7: `adjacent` is symmetric in its two handle arguments. The body
returns `true` for every pair of handles, so symmetry holds for all
handles (in particular all valid ones). -/
theorem adjacent_symm (g : Graph V E) (v1 v2 : VRef V E) :
    g.adjacent v1 v2 = g.adjacent v2 v1 :=
  rfl

/-- Claim C8: however many times `next` is called, the vertex iterator of
`g` yields exactly the handle indices `0, 1, …, num_vertices() - 1` in
increasing order (here `num_vertices()` is the constant `0`, so the yield
is empty and the iterator is trivially finite), and no vertex can ever be
added during iteration, because `add_vertex` never returns. -/
theorem vertices_iter_yields_range (g : Graph V E) (fuel : Nat) :
    (VIter.takeAux fuel g.vertices_iter).map VRef.index =
      List.range g.num_vertices ∧
    ∀ v : V, g.add_vertex v = none := by
  refine ⟨?_, fun _ => rfl⟩
  rw [takeAux_eq_nil]
  rfl

/-- Claim C9: every public operation takes the graph by shared reference
and cannot mutate it; any sequence of calls that returns leaves the graph
— hence `num_vertices()` and `num_edges()` — exactly as before. -/
theorem public_ops_frame [DecidableEq V] [Inhabited E]
    (ops : List (Op V E)) (g g' : Graph V E) (h : runOps ops g = some g') :
    g' = g ∧ g'.num_vertices = g.num_vertices ∧
      g'.num_edges = g.num_edges := by
  have hg := runOps_eq_some ops g g' h
  exact ⟨hg, by rw [hg], by rw [hg]⟩

/-- A concrete returning sequence of public calls over `Nat` payloads and
weights. -/
def witnessOps : List (Op Nat Nat) :=
  [Op.num_components,
   Op.replace_edge { index := 0, graph := Graph.new }
     { index := 0, graph := Graph.new } 3,
   Op.adjacent { index := 0, graph := Graph.new }
     { index := 1, graph := Graph.new },
   Op.extend_with_edges []]

/-- Witness for C9: running `witnessOps` on the empty graph returns and
preserves everything. -/
theorem public_ops_frame_witness :
    runOps witnessOps (Graph.new : Graph Nat Nat) = some Graph.new ∧
    ((Graph.new : Graph Nat Nat) = Graph.new ∧
      (Graph.new : Graph Nat Nat).num_vertices =
        (Graph.new : Graph Nat Nat).num_vertices ∧
      (Graph.new : Graph Nat Nat).num_edges =
        (Graph.new : Graph Nat Nat).num_edges) :=
  ⟨rfl, public_ops_frame witnessOps Graph.new Graph.new rfl⟩

/-- Claim C10: dereferencing a handle — `Deref` on `VRef` and on `eIter` —
is `unimplemented!()` and panics (modelled `none`) on every input, so no
payload or weight can ever be read through the dereference operator. -/
theorem handle_deref_diverges (r : VRef V E) (ei : eIter E) :
    r.deref = none ∧ ei.deref = none :=
  ⟨rfl, rfl⟩

end MichaelJackson
